import Mathlib

/-!
Verification of the Hopalong orbit generator and particle-level cycler
(`src/hopalong.ts`).  JavaScript numbers are modelled as exact reals;
`Math.sqrt` and `Math.log` become `Real.sqrt` and `Real.log`.  Division by a
zero span, which in floating point produces a non-finite scale factor, is
modelled by `Option ℝ` with `none` standing for a non-finite value.
-/

namespace Hopalong

/-- Display constant `SCALE_FACTOR = 1500`. -/
def SCALE_FACTOR : ℝ := 1500

/-- Level length constant `LEVEL_DEPTH = 600`. -/
def LEVEL_DEPTH : ℝ := 600

/-- Type `OrbitParams<number>`: five coefficients, three mode/preset scalars and a
creation timestamp. -/
structure OrbitParams where
  a : ℝ
  b : ℝ
  c : ℝ
  d : ℝ
  e : ℝ
  choice : ℝ
  xPreset : ℝ
  yPreset : ℝ
  timeCreated : ℝ

/-- One iteration of the orbit recurrence (`generateOrbit`, lines 377-393):
compute `z` by one of three branches on `choice`, compute `x1` by the sign of
`x`, then `y ← a − x` and `x ← x1 + e`.  Returns the updated `(x, y)`. -/
noncomputable def genStep (p : OrbitParams) (x y : ℝ) : ℝ × ℝ :=
  let z : ℝ :=
    if p.choice < 0.5 then p.d + Real.sqrt |p.b * x - p.c|
    else if p.choice < 0.75 then p.d + Real.sqrt (Real.sqrt |p.b * x - p.c|)
    else p.d + Real.log (2 + Real.sqrt |p.b * x - p.c|)
  let x1 : ℝ := if x > 0 then y - z else if x = 0 then y else y + z
  (x1 + p.e, p.a - x)

/-- The same step as the specification words it: branch 1 for `choice < 0.5`,
branch 2 for `0.5 ≤ choice < 0.75`, branch 3 for `choice ≥ 0.75`; `x1` is
`y − z` for `x > 0`, `y + z` for `x < 0`, and `y` for `x = 0`. -/
noncomputable def stepSpec (p : OrbitParams) (x y : ℝ) : ℝ × ℝ :=
  let m := Real.sqrt |p.b * x - p.c|
  let z : ℝ :=
    if p.choice < 0.5 then p.d + m
    else if p.choice < 0.75 then p.d + Real.sqrt m
    else p.d + Real.log (2 + m)
  let x1 : ℝ := if 0 < x then y - z else if x < 0 then y + z else y
  (x1 + p.e, p.a - x)

/-- C1: the orbit-generation step agrees with the specification: the
three-branch form of `z`, the sign-of-`x` cases for `x1` and the state update
`y' = a − x`, `x' = x1 + e`; in the literal trace with `choice = 0.3`,
`a = 1, b = 1, c = 10, d = 0, e = 0` and `(x, y) = (2, 0)` one step yields
`(x', y') = (−√8, −1)` with `√8 = 2.828…`. -/
theorem genStep_spec :
    (∀ (p : OrbitParams) (x y : ℝ), genStep p x y = stepSpec p x y) ∧
    genStep ⟨1, 1, 10, 0, 0, 0.3, 0, 0, 0⟩ 2 0 = (-Real.sqrt 8, -1) ∧
    2.828 < Real.sqrt 8 ∧ Real.sqrt 8 < 2.829 := by
  refine ⟨?_, ?_, ?_, ?_⟩
  · intro p x y
    simp only [genStep, stepSpec]
    by_cases hx : 0 < x
    · simp [hx]
    · by_cases hx0 : x = 0
      · simp [hx0]
      · have hneg : x < 0 := lt_of_le_of_ne (not_lt.mp hx) hx0
        simp [hx, hx0, hneg]
  · have h8 : |1 * (2 : ℝ) - 10| = 8 := by norm_num
    simp only [genStep, h8]
    norm_num
  · have h : Real.sqrt 8 ^ 2 = 8 := Real.sq_sqrt (by norm_num)
    nlinarith [Real.sqrt_nonneg 8]
  · have h : Real.sqrt 8 ^ 2 = 8 := Real.sq_sqrt (by norm_num)
    nlinarith [Real.sqrt_nonneg 8]

/-- Points of one subset: iterate `genStep` from the start `(x, y)` of the subset,
recording the updated `(x, y)` after each step (`curSubset[i].x = x`,
`curSubset[i].y = y` come after the update in the loop body). -/
noncomputable def genSubsetPoints (p : OrbitParams) : ℕ → ℝ × ℝ → List (ℝ × ℝ)
  | 0, _ => []
  | n + 1, q => genStep p q.1 q.2 :: genSubsetPoints p n (genStep p q.1 q.2)

/-- The running bounds `xMin, xMax, yMin, yMax` of `generateOrbit`,
all initialised to `0` (lines 362-365). -/
structure Bounds where
  xMin : ℝ
  xMax : ℝ
  yMin : ℝ
  yMax : ℝ

/-- The in-loop bounds update (lines 398-407): `if (x < xMin) xMin = x; else
if (x > xMax) xMax = x;` and likewise for `y`. -/
noncomputable def updateBounds (b : Bounds) (q : ℝ × ℝ) : Bounds :=
  let b1 : Bounds :=
    if q.1 < b.xMin then { b with xMin := q.1 }
    else if q.1 > b.xMax then { b with xMax := q.1 }
    else b
  if q.2 < b1.yMin then { b1 with yMin := q.2 }
  else if q.2 > b1.yMax then { b1 with yMax := q.2 }
  else b1

/-- The `Orbit` record: subset point clouds, bounding box and scale factors.
`scaleX = 2·SCALE_FACTOR / (xMax − xMin)` is non-finite in floating point when
the span is zero; a non-finite scale is modelled as `none`. -/
structure Orbit where
  subsets : List (List (ℝ × ℝ))
  xMin : ℝ
  xMax : ℝ
  yMin : ℝ
  yMax : ℝ
  scaleX : Option ℝ
  scaleY : Option ℝ

/-- Per-subset starting point (lines 369-370):
`x = s · 0.005 · (0.5 − xPreset · (random/2))` and likewise for `y`, where the
two `Math.random()` draws for subset `s` are supplied as `r1 s` and `r2 s`. -/
noncomputable def subsetStart (p : OrbitParams) (r1 r2 : ℕ → ℝ) (s : ℕ) : ℝ × ℝ :=
  ((s : ℝ) * 0.005 * (0.5 - p.xPreset * (r1 s / 2)),
   (s : ℝ) * 0.005 * (0.5 - p.yPreset * (r2 s / 2)))

/-- Function `generateOrbit` (lines 347-429), with the parameter selection of
`prepareOrbit`/`shuffleParams` factored out into the argument `p` and the
`Math.random()` draws of the subset starts supplied as `r1`, `r2`.  Subsets
are generated in order, the running bounds are threaded through all subsets
in generation order, and the scale factors are computed from the final
bounds. -/
noncomputable def generateOrbit (p : OrbitParams) (numSubsets numPointsSubset : ℕ)
    (r1 r2 : ℕ → ℝ) : Orbit :=
  let subsets := (List.range numSubsets).map
    (fun s => genSubsetPoints p numPointsSubset (subsetStart p r1 r2 s))
  let b : Bounds := subsets.foldl (fun acc pts => pts.foldl updateBounds acc) ⟨0, 0, 0, 0⟩
  { subsets := subsets
    xMin := b.xMin
    xMax := b.xMax
    yMin := b.yMin
    yMax := b.yMax
    scaleX :=
      if b.xMax - b.xMin = 0 then none else some (2 * SCALE_FACTOR / (b.xMax - b.xMin))
    scaleY :=
      if b.yMax - b.yMin = 0 then none else some (2 * SCALE_FACTOR / (b.yMax - b.yMin)) }

/-- Normalization pass for the x axis (line 425):
`vertex.x = scaleX · (x − xMin) − SCALE_FACTOR`; `none` when the scale factor
is non-finite (every term containing a non-finite float is non-finite). -/
noncomputable def displayX (o : Orbit) (x : ℝ) : Option ℝ :=
  o.scaleX.map (fun k => k * (x - o.xMin) - SCALE_FACTOR)

/-- Normalization pass for the y axis (line 426). -/
noncomputable def displayY (o : Orbit) (y : ℝ) : Option ℝ :=
  o.scaleY.map (fun k => k * (y - o.yMin) - SCALE_FACTOR)

/-- Raw x coordinates of all points of all subsets, in generation order. -/
def rawXs (o : Orbit) : List ℝ := o.subsets.flatten.map Prod.fst

/-- Raw y coordinates of all points of all subsets, in generation order. -/
def rawYs (o : Orbit) : List ℝ := o.subsets.flatten.map Prod.snd

lemma updateBounds_eq (b : Bounds) (q : ℝ × ℝ) (hx : b.xMin ≤ b.xMax)
    (hy : b.yMin ≤ b.yMax) :
    updateBounds b q = ⟨min b.xMin q.1, max b.xMax q.1, min b.yMin q.2, max b.yMax q.2⟩ := by
  obtain ⟨x0, x1, y0, y1⟩ := b
  simp only at hx hy
  simp only [updateBounds]
  split_ifs <;>
    (simp only [Bounds.mk.injEq]; refine ⟨?_, ?_, ?_, ?_⟩ <;>
      simp only [min_def, max_def] <;> split_ifs <;> first | rfl | linarith)

lemma foldl_updateBounds (l : List (ℝ × ℝ)) :
    ∀ b : Bounds, b.xMin ≤ b.xMax → b.yMin ≤ b.yMax →
      l.foldl updateBounds b =
        ⟨l.foldl (fun m q => min m q.1) b.xMin, l.foldl (fun m q => max m q.1) b.xMax,
         l.foldl (fun m q => min m q.2) b.yMin, l.foldl (fun m q => max m q.2) b.yMax⟩ := by
  induction l with
  | nil => intro b _ _; rfl
  | cons q l ih =>
    intro b hx hy
    rw [List.foldl_cons, updateBounds_eq b q hx hy,
      ih _ (le_trans (min_le_left _ _) (le_trans hx (le_max_left _ _)))
        (le_trans (min_le_left _ _) (le_trans hy (le_max_left _ _)))]
    rfl

lemma generateOrbit_bounds (p : OrbitParams) (ns np : ℕ) (r1 r2 : ℕ → ℝ) :
    (generateOrbit p ns np r1 r2).xMin =
        (rawXs (generateOrbit p ns np r1 r2)).foldl min 0 ∧
      (generateOrbit p ns np r1 r2).xMax =
        (rawXs (generateOrbit p ns np r1 r2)).foldl max 0 ∧
      (generateOrbit p ns np r1 r2).yMin =
        (rawYs (generateOrbit p ns np r1 r2)).foldl min 0 ∧
      (generateOrbit p ns np r1 r2).yMax =
        (rawYs (generateOrbit p ns np r1 r2)).foldl max 0 := by
  simp only [generateOrbit]
  rw [← List.foldl_flatten updateBounds, foldl_updateBounds _ _ le_rfl le_rfl]
  simp only [rawXs, rawYs, List.foldl_map]
  exact ⟨trivial, trivial, trivial, trivial⟩

lemma generateOrbit_scaleX (p : OrbitParams) (ns np : ℕ) (r1 r2 : ℕ → ℝ) :
    (generateOrbit p ns np r1 r2).scaleX =
      if (generateOrbit p ns np r1 r2).xMax - (generateOrbit p ns np r1 r2).xMin = 0
      then none
      else some (2 * SCALE_FACTOR /
        ((generateOrbit p ns np r1 r2).xMax - (generateOrbit p ns np r1 r2).xMin)) := rfl

lemma generateOrbit_scaleY (p : OrbitParams) (ns np : ℕ) (r1 r2 : ℕ → ℝ) :
    (generateOrbit p ns np r1 r2).scaleY =
      if (generateOrbit p ns np r1 r2).yMax - (generateOrbit p ns np r1 r2).yMin = 0
      then none
      else some (2 * SCALE_FACTOR /
        ((generateOrbit p ns np r1 r2).yMax - (generateOrbit p ns np r1 r2).yMin)) := rfl

lemma genStep_zeroX (p : OrbitParams) (y : ℝ) : genStep p 0 y = (y + p.e, p.a) := by
  simp [genStep]

/-- Concrete parameters `a = 1, b = 1, c = 10, d = 0, e = 0, choice = 0.3`. -/
noncomputable def pEx : OrbitParams := ⟨1, 1, 10, 0, 0, 0.3, 0, 0, 0⟩

lemma oEx_eval :
    generateOrbit pEx 1 2 (fun _ => 0) (fun _ => 0) =
      { subsets := [[(0, 1), (1, 1)]], xMin := 0, xMax := 1, yMin := 0, yMax := 1,
        scaleX := some 3000, scaleY := some 3000 } := by
  have hs : subsetStart pEx (fun _ => 0) (fun _ => 0) 0 = (0, 0) := by
    simp [subsetStart]
  have h0 : genStep pEx 0 0 = (0, 1) := by
    rw [genStep_zeroX]; norm_num [pEx]
  have h1 : genStep pEx 0 1 = (1, 1) := by
    rw [genStep_zeroX]; norm_num [pEx]
  have hpts : genSubsetPoints pEx 2 (0, 0) = [(0, 1), (1, 1)] := by
    show genStep pEx 0 0 :: genSubsetPoints pEx 1 (genStep pEx 0 0) = _
    rw [h0]
    show ((0 : ℝ), (1 : ℝ)) :: genStep pEx 0 1 :: genSubsetPoints pEx 0 (genStep pEx 0 1) = _
    rw [h1]
    rfl
  have hr : List.range 1 = [0] := rfl
  have hb : List.foldl (fun acc pts => List.foldl updateBounds acc pts)
      (⟨0, 0, 0, 0⟩ : Bounds) [[((0 : ℝ), (1 : ℝ)), (1, 1)]] = ⟨0, 1, 0, 1⟩ := by
    norm_num [updateBounds]
  simp only [generateOrbit, hr, List.map_cons, List.map_nil, hs, hpts, hb]
  norm_num [SCALE_FACTOR]

/-- C2 counterexample: with `a = 1, b = 1, c = 10, d = 0, e = 0, choice = 0.3`,
one subset of two points, the generated raw points are `(0,1)` and `(1,1)`, so
the minimum raw `y` over all points is `1`; yet `1` is mapped to
`+SCALE_FACTOR`, not `−SCALE_FACTOR`, because the running bounds are seeded at
`0` and `yMin = 0 < 1`. -/
theorem bounds_seeded_at_zero_cex :
    rawYs (generateOrbit pEx 1 2 (fun _ => 0) (fun _ => 0)) = [1, 1] ∧
    displayY (generateOrbit pEx 1 2 (fun _ => 0) (fun _ => 0)) 1 = some SCALE_FACTOR ∧
    some (SCALE_FACTOR : ℝ) ≠ some (-SCALE_FACTOR : ℝ) := by
  rw [oEx_eval]
  refine ⟨by simp [rawYs], ?_, by norm_num [SCALE_FACTOR]⟩
  norm_num [displayY, SCALE_FACTOR]

/-- C2 (amended): the bounds `xMin, xMax, yMin, yMax` of a generated orbit are
the running minima/maxima of the raw coordinates *seeded at 0* (so
`xMin = min(0, min raw x)`, etc., not the minimum over the points alone); when
a span is nonzero, the bound values themselves map exactly to
`−SCALE_FACTOR` and `+SCALE_FACTOR` under the display normalization. -/
theorem normalization_extremes_amended (p : OrbitParams) (ns np : ℕ) (r1 r2 : ℕ → ℝ)
    (o : Orbit) (ho : o = generateOrbit p ns np r1 r2) :
    (o.xMin = (rawXs o).foldl min 0 ∧ o.xMax = (rawXs o).foldl max 0 ∧
      o.yMin = (rawYs o).foldl min 0 ∧ o.yMax = (rawYs o).foldl max 0) ∧
    (o.xMax - o.xMin ≠ 0 →
      displayX o o.xMin = some (-SCALE_FACTOR) ∧ displayX o o.xMax = some SCALE_FACTOR) ∧
    (o.yMax - o.yMin ≠ 0 →
      displayY o o.yMin = some (-SCALE_FACTOR) ∧ displayY o o.yMax = some SCALE_FACTOR) := by
  subst ho
  obtain ⟨h1, h2, h3, h4⟩ := generateOrbit_bounds p ns np r1 r2
  refine ⟨⟨h1, h2, h3, h4⟩, ?_, ?_⟩
  · intro h
    have hcancel : 2 * SCALE_FACTOR / ((generateOrbit p ns np r1 r2).xMax -
        (generateOrbit p ns np r1 r2).xMin) * ((generateOrbit p ns np r1 r2).xMax -
        (generateOrbit p ns np r1 r2).xMin) = 2 * SCALE_FACTOR := div_mul_cancel₀ _ h
    constructor <;>
      · simp only [displayX, generateOrbit_scaleX, if_neg h, Option.map_some']
        congr 1
        nlinarith [hcancel]
  · intro h
    have hcancel : 2 * SCALE_FACTOR / ((generateOrbit p ns np r1 r2).yMax -
        (generateOrbit p ns np r1 r2).yMin) * ((generateOrbit p ns np r1 r2).yMax -
        (generateOrbit p ns np r1 r2).yMin) = 2 * SCALE_FACTOR := div_mul_cancel₀ _ h
    constructor <;>
      · simp only [displayY, generateOrbit_scaleY, if_neg h, Option.map_some']
        congr 1
        nlinarith [hcancel]

/-- Witness for the amended C2 at the concrete orbit of `pEx` (spans are 1),
obtained by applying the amended theorem. -/
theorem normalization_extremes_witness :
    displayX (generateOrbit pEx 1 2 (fun _ => 0) (fun _ => 0))
        (generateOrbit pEx 1 2 (fun _ => 0) (fun _ => 0)).xMin = some (-SCALE_FACTOR) ∧
    displayX (generateOrbit pEx 1 2 (fun _ => 0) (fun _ => 0))
        (generateOrbit pEx 1 2 (fun _ => 0) (fun _ => 0)).xMax = some SCALE_FACTOR ∧
    displayY (generateOrbit pEx 1 2 (fun _ => 0) (fun _ => 0))
        (generateOrbit pEx 1 2 (fun _ => 0) (fun _ => 0)).yMin = some (-SCALE_FACTOR) ∧
    displayY (generateOrbit pEx 1 2 (fun _ => 0) (fun _ => 0))
        (generateOrbit pEx 1 2 (fun _ => 0) (fun _ => 0)).yMax = some SCALE_FACTOR := by
  have h := normalization_extremes_amended pEx 1 2 (fun _ => 0) (fun _ => 0) _ rfl
  have hx : (generateOrbit pEx 1 2 (fun _ => 0) (fun _ => 0)).xMax -
      (generateOrbit pEx 1 2 (fun _ => 0) (fun _ => 0)).xMin ≠ 0 := by
    rw [oEx_eval]; norm_num
  have hy : (generateOrbit pEx 1 2 (fun _ => 0) (fun _ => 0)).yMax -
      (generateOrbit pEx 1 2 (fun _ => 0) (fun _ => 0)).yMin ≠ 0 := by
    rw [oEx_eval]; norm_num
  exact ⟨(h.2.1 hx).1, (h.2.1 hx).2, (h.2.2 hy).1, (h.2.2 hy).2⟩

/-- C9 (amended): no fallback is substituted for a degenerate bounding box:
a display coordinate is finite (`isSome`) exactly when the corresponding span
is nonzero; with a zero span the non-finite scale propagates (`none`). -/
theorem display_finite_iff (p : OrbitParams) (ns np : ℕ) (r1 r2 : ℕ → ℝ) (x y : ℝ) :
    ((displayX (generateOrbit p ns np r1 r2) x).isSome ↔
      (generateOrbit p ns np r1 r2).xMax - (generateOrbit p ns np r1 r2).xMin ≠ 0) ∧
    ((displayY (generateOrbit p ns np r1 r2) y).isSome ↔
      (generateOrbit p ns np r1 r2).yMax - (generateOrbit p ns np r1 r2).yMin ≠ 0) := by
  constructor
  · rw [displayX, generateOrbit_scaleX]
    split_ifs with h <;> simp [h]
  · rw [displayY, generateOrbit_scaleY]
    split_ifs with h <;> simp [h]

/-- Concrete parameters `a = 0, b = 1, c = 10, d = 0, e = 0, choice = 0.3`,
which generate a degenerate orbit (all points `(0, 0)`). -/
noncomputable def pDeg : OrbitParams := ⟨0, 1, 10, 0, 0, 0.3, 0, 0, 0⟩

lemma oDeg_eval :
    generateOrbit pDeg 1 1 (fun _ => 0) (fun _ => 0) =
      { subsets := [[(0, 0)]], xMin := 0, xMax := 0, yMin := 0, yMax := 0,
        scaleX := none, scaleY := none } := by
  have hs : subsetStart pDeg (fun _ => 0) (fun _ => 0) 0 = (0, 0) := by
    simp [subsetStart]
  have h0 : genStep pDeg 0 0 = (0, 0) := by
    rw [genStep_zeroX]; norm_num [pDeg]
  have hpts : genSubsetPoints pDeg 1 (0, 0) = [(0, 0)] := by
    show genStep pDeg 0 0 :: genSubsetPoints pDeg 0 (genStep pDeg 0 0) = _
    rw [h0]
    rfl
  have hr : List.range 1 = [0] := rfl
  have hb : List.foldl (fun acc pts => List.foldl updateBounds acc pts)
      (⟨0, 0, 0, 0⟩ : Bounds) [[((0 : ℝ), (0 : ℝ))]] = ⟨0, 0, 0, 0⟩ := by
    norm_num [updateBounds]
  simp only [generateOrbit, hr, List.map_cons, List.map_nil, hs, hpts, hb]
  norm_num [SCALE_FACTOR]

/-- C9 counterexample: the orbit generated from `pDeg` (one subset, one point)
has the raw point `(0, 0)` and a degenerate bounding box; both display
coordinates of that point are non-finite (`none`) — there is no safe minimum
span or identity fallback. -/
theorem degenerate_orbit_cex :
    rawXs (generateOrbit pDeg 1 1 (fun _ => 0) (fun _ => 0)) = [0] ∧
    displayX (generateOrbit pDeg 1 1 (fun _ => 0) (fun _ => 0)) 0 = none ∧
    displayY (generateOrbit pDeg 1 1 (fun _ => 0) (fun _ => 0)) 0 = none := by
  rw [oDeg_eval]
  exact ⟨by simp [rawXs], by simp [displayX], by simp [displayY]⟩

/-- Curated branch of `shuffleParams` (line 443):
`best_frames[currentFrame > best_frames.length ? currentFrame = 0 : currentFrame++]`.
The catalog entry type is abstract (the JSON catalog is an asset, not source).
Returns the entry read and the cursor after the call; an out-of-bounds read
(`best_frames[i]` is `undefined`, so `.params` throws) is modelled as `none`.
Note the condition is the strict `>` of the source, not `≥`. -/
def shuffleParamsCurated {α : Type} (catalog : List α) (cursor : ℕ) : Option α × ℕ :=
  if cursor > catalog.length then (catalog[0]?, 0) else (catalog[cursor]?, cursor + 1)

/-- C3 evidence: with a two-entry catalog and cursor starting at 0, the first
two selections read entries 0 and 1, but the third selection — cursor 2, which
*equals* the catalog length — is not reset (the code resets only on strict
`>`) and reads `best_frames[2]`, which is out of bounds (`none`); only the
fourth selection resets and re-reads entry 0.  The claimed reset at
"meets or exceeds" and the validity of every read fail at cursor 2. -/
theorem curated_overrun_eval :
    shuffleParamsCurated [0, 1] 0 = (some 0, 1) ∧
    shuffleParamsCurated [0, 1] 1 = (some 1, 2) ∧
    shuffleParamsCurated [0, 1] 2 = (none, 3) ∧
    shuffleParamsCurated [0, 1] 3 = (some 0, 0) := by decide

/-- Randomized branch of `shuffleParams` (lines 445-455): each coefficient is
`min + random · (max − min)` over its constraint interval, `choice`,
`xPreset`, `yPreset` are plain `Math.random()` draws, and `timeCreated` is
stamped with `Date.now()`.  The eight draws are supplied as `r 0 .. r 7`. -/
noncomputable def shuffleParamsRandom (r : ℕ → ℝ) (now : ℝ) : OrbitParams :=
  { a := -30 + r 0 * (30 - (-30))
    b := 0.2 + r 1 * (1.8 - 0.2)
    c := 5 + r 2 * (17 - 5)
    d := 0 + r 3 * (10 - 0)
    e := 0 + r 4 * (12 - 0)
    choice := r 5
    xPreset := r 6
    yPreset := r 7
    timeCreated := now }

/-- C8: whenever every `Math.random()` draw lies in `[0, 1)`, the randomized
parameters satisfy `a ∈ [−30, 30]`, `b ∈ [0.2, 1.8]`, `c ∈ [5, 17]`,
`d ∈ [0, 10]`, `e ∈ [0, 12]` and `choice, xPreset, yPreset ∈ [0, 1)`. -/
theorem shuffleParamsRandom_ranges (r : ℕ → ℝ) (now : ℝ)
    (hr : ∀ i, r i ∈ Set.Ico (0 : ℝ) 1) :
    (shuffleParamsRandom r now).a ∈ Set.Icc (-30 : ℝ) 30 ∧
    (shuffleParamsRandom r now).b ∈ Set.Icc (0.2 : ℝ) 1.8 ∧
    (shuffleParamsRandom r now).c ∈ Set.Icc (5 : ℝ) 17 ∧
    (shuffleParamsRandom r now).d ∈ Set.Icc (0 : ℝ) 10 ∧
    (shuffleParamsRandom r now).e ∈ Set.Icc (0 : ℝ) 12 ∧
    (shuffleParamsRandom r now).choice ∈ Set.Ico (0 : ℝ) 1 ∧
    (shuffleParamsRandom r now).xPreset ∈ Set.Ico (0 : ℝ) 1 ∧
    (shuffleParamsRandom r now).yPreset ∈ Set.Ico (0 : ℝ) 1 := by
  have h0 := hr 0
  have h1 := hr 1
  have h2 := hr 2
  have h3 := hr 3
  have h4 := hr 4
  have h5 := hr 5
  have h6 := hr 6
  have h7 := hr 7
  simp only [Set.mem_Ico] at h0 h1 h2 h3 h4 h5 h6 h7
  simp only [shuffleParamsRandom, Set.mem_Icc, Set.mem_Ico]
  exact ⟨⟨by nlinarith [h0.1, h0.2], by nlinarith [h0.1, h0.2]⟩,
    ⟨by nlinarith [h1.1, h1.2], by nlinarith [h1.1, h1.2]⟩,
    ⟨by nlinarith [h2.1, h2.2], by nlinarith [h2.1, h2.2]⟩,
    ⟨by nlinarith [h3.1, h3.2], by nlinarith [h3.1, h3.2]⟩,
    ⟨by nlinarith [h4.1, h4.2], by nlinarith [h4.1, h4.2]⟩,
    ⟨h5.1, h5.2⟩, ⟨h6.1, h6.2⟩, ⟨h7.1, h7.2⟩⟩

/-- C8 witness: the ranges hold at the concrete draw `r = fun i => 1/2`. -/
theorem shuffleParamsRandom_ranges_witness :
    (shuffleParamsRandom (fun _ => 1 / 2) 0).a ∈ Set.Icc (-30 : ℝ) 30 ∧
    (shuffleParamsRandom (fun _ => 1 / 2) 0).b ∈ Set.Icc (0.2 : ℝ) 1.8 ∧
    (shuffleParamsRandom (fun _ => 1 / 2) 0).c ∈ Set.Icc (5 : ℝ) 17 ∧
    (shuffleParamsRandom (fun _ => 1 / 2) 0).d ∈ Set.Icc (0 : ℝ) 10 ∧
    (shuffleParamsRandom (fun _ => 1 / 2) 0).e ∈ Set.Icc (0 : ℝ) 12 ∧
    (shuffleParamsRandom (fun _ => 1 / 2) 0).choice ∈ Set.Ico (0 : ℝ) 1 ∧
    (shuffleParamsRandom (fun _ => 1 / 2) 0).xPreset ∈ Set.Ico (0 : ℝ) 1 ∧
    (shuffleParamsRandom (fun _ => 1 / 2) 0).yPreset ∈ Set.Ico (0 : ℝ) 1 :=
  shuffleParamsRandom_ranges (fun _ => 1 / 2) 0
    (fun _ => Set.mem_Ico.mpr ⟨by norm_num, by norm_num⟩)

/-- Shared state read by the per-frame loop: `speed`, `rotationSpeed`, the
camera depth `camera.position.z`, `numLevels`, and the current shared
`orbitParams` and hue for the subset of the group. -/
structure Env where
  speed : ℝ
  rotationSpeed : ℝ
  cameraZ : ℝ
  numLevels : ℝ
  orbitParams : OrbitParams
  hue : ℝ

/-- One `HopalongParticleSet`: scroll depth (`particles.position.z`), rotation
(`particles.rotation.z`), the repaint flag `needsUpdate`, the params adopted at
the last repaint, the material hue, and `geometry.verticesNeedUpdate` (set to
re-upload the shared vertex data, i.e. adopt the current point cloud). -/
structure Group where
  depth : ℝ
  rotation : ℝ
  needsUpdate : Bool
  params : OrbitParams
  hue : ℝ
  verticesNeedUpdate : Bool

/-- Per-group body of the `render` loop (lines 304-324): advance depth by
`speed` and rotation by `rotationSpeed`; if the new depth exceeds the camera
depth, reset depth to `−(numLevels − 1) · LEVEL_DEPTH` and, when the repaint
flag is set, adopt the shared point cloud (`verticesNeedUpdate = true`), the
current hue and the current orbit parameters and clear the flag. -/
noncomputable def render (env : Env) (g : Group) : Group :=
  let z := g.depth + env.speed
  let rot := g.rotation + env.rotationSpeed
  if z > env.cameraZ then
    if g.needsUpdate then
      { depth := -(env.numLevels - 1) * LEVEL_DEPTH, rotation := rot,
        needsUpdate := false, params := env.orbitParams, hue := env.hue,
        verticesNeedUpdate := true }
    else
      { g with depth := -(env.numLevels - 1) * LEVEL_DEPTH, rotation := rot }
  else
    { g with depth := z, rotation := rot }

/-- Function `updateOrbit` (lines 333-339) as it acts on the particle groups: after
regenerating the shared orbit and hues it sets the repaint flag on every
group. -/
def updateOrbit (gs : List Group) : List Group :=
  gs.map (fun g => { g with needsUpdate := true })

lemma render_rotation (env : Env) (g : Group) :
    (render env g).rotation = g.rotation + env.rotationSpeed := by
  simp only [render]
  split_ifs <;> rfl

lemma render_depth (env : Env) (g : Group) :
    (render env g).depth =
      if g.depth + env.speed > env.cameraZ then -(env.numLevels - 1) * LEVEL_DEPTH
      else g.depth + env.speed := by
  simp only [render]
  split_ifs <;> rfl

/-- The concrete scenario environment: `speed = 2`, camera depth `750`,
`levelCount = 3` (`rotationSpeed`, params and hue irrelevant). -/
noncomputable def envC : Env := ⟨2, 0, 750, 3, pEx, 0⟩

/-- C5: each tick advances depth by `speed` and rotation by `rotationSpeed`; a
crossing happens exactly when the advanced depth exceeds the camera depth, and
then depth is reset to `−(numLevels − 1) · LEVEL_DEPTH`.  In the concrete
scenario (`speed = 2`, `LEVEL_DEPTH = 600`, `levelCount = 3`, camera depth
`750`) a group starting at depth `750 − 2k` is at depth `750 − 2(k − i)` after
`i ≤ k` ticks, reaches the camera (depth `750`) after exactly `k` ticks, and
is reset to `−1200` on the next tick. -/
theorem render_tick_spec :
    (∀ (env : Env) (g : Group),
      (render env g).rotation = g.rotation + env.rotationSpeed ∧
      (render env g).depth =
        (if g.depth + env.speed > env.cameraZ then -(env.numLevels - 1) * LEVEL_DEPTH
         else g.depth + env.speed)) ∧
    (∀ (k : ℕ) (g : Group), g.depth = 750 - 2 * (k : ℝ) →
      (∀ i : ℕ, i ≤ k →
        ((render envC)^[i] g).depth = 750 - 2 * ((k : ℝ) - (i : ℝ))) ∧
      ((render envC)^[k] g).depth = 750 ∧
      ((render envC)^[k + 1] g).depth = -1200) := by
  refine ⟨fun env g => ⟨render_rotation env g, render_depth env g⟩, ?_⟩
  intro k g hg
  have traj : ∀ i : ℕ, i ≤ k →
      ((render envC)^[i] g).depth = 750 - 2 * ((k : ℝ) - (i : ℝ)) := by
    intro i
    induction i with
    | zero =>
      intro _
      simpa using hg
    | succ i ih =>
      intro hik
      have hd := ih (Nat.le_of_succ_le hik)
      have hik' : (i : ℝ) + 1 ≤ (k : ℝ) := by exact_mod_cast hik
      rw [Function.iterate_succ_apply', render_depth, hd]
      have hnc : ¬ (750 - 2 * ((k : ℝ) - (i : ℝ)) + envC.speed > envC.cameraZ) := by
        show ¬ (750 - 2 * ((k : ℝ) - (i : ℝ)) + 2 > 750)
        push_neg
        linarith
      rw [if_neg hnc]
      show 750 - 2 * ((k : ℝ) - (i : ℝ)) + 2 = 750 - 2 * ((k : ℝ) - ((i : ℕ) + 1 : ℕ))
      push_cast
      ring
  have hk : ((render envC)^[k] g).depth = 750 := by
    have := traj k le_rfl
    rw [this]
    ring
  refine ⟨traj, hk, ?_⟩
  rw [Function.iterate_succ_apply', render_depth, hk]
  have hc : (750 : ℝ) + envC.speed > envC.cameraZ := by
    show (750 : ℝ) + 2 > 750
    norm_num
  rw [if_pos hc]
  show -(((3 : ℝ)) - 1) * LEVEL_DEPTH = -1200
  norm_num [LEVEL_DEPTH]

/-- A concrete group at depth `744 = 750 − 2·3`, repaint flag clear. -/
noncomputable def gEx : Group := ⟨744, 0, false, pEx, 0, false⟩

/-- C5 witness: from depth `744` the group reaches depth `750` after exactly
3 ticks and is reset to `−1200` on the 4th. -/
theorem render_tick_witness :
    ((render envC)^[3] gEx).depth = 750 ∧ ((render envC)^[4] gEx).depth = -1200 :=
  ⟨(render_tick_spec.2 3 gEx (by norm_num [gEx])).2.1,
   (render_tick_spec.2 3 gEx (by norm_num [gEx])).2.2⟩

/-- C6: the regeneration trigger sets the repaint flag on every group; a set
flag is cleared at the next crossing of the group, and whenever a tick clears the
flag it simultaneously adopts the shared point cloud
(`verticesNeedUpdate = true`), the current hue and the current orbit
parameters; the flag is never cleared otherwise. -/
theorem repaint_flag_spec :
    (∀ gs : List Group, ∀ g ∈ updateOrbit gs, g.needsUpdate = true) ∧
    (∀ (env : Env) (g : Group), g.needsUpdate = true →
      g.depth + env.speed > env.cameraZ →
      (render env g).needsUpdate = false ∧ (render env g).params = env.orbitParams ∧
      (render env g).hue = env.hue ∧ (render env g).verticesNeedUpdate = true) ∧
    (∀ (env : Env) (g : Group), (render env g).needsUpdate = false →
      g.needsUpdate = false ∨
      (g.depth + env.speed > env.cameraZ ∧ (render env g).params = env.orbitParams ∧
        (render env g).hue = env.hue ∧ (render env g).verticesNeedUpdate = true)) := by
  refine ⟨?_, ?_, ?_⟩
  · intro gs g hg
    simp only [updateOrbit, List.mem_map] at hg
    obtain ⟨g', _, rfl⟩ := hg
    rfl
  · intro env g hflag hcross
    simp only [render, if_pos hcross, hflag, if_true]
    exact ⟨trivial, trivial, trivial, trivial⟩
  · intro env g hclear
    simp only [render] at hclear
    by_cases hcross : g.depth + env.speed > env.cameraZ
    · by_cases hflag : g.needsUpdate = true
      · right
        refine ⟨hcross, ?_⟩
        simp only [render, if_pos hcross, hflag, if_true]
        exact ⟨trivial, trivial, trivial⟩
      · left
        exact Bool.not_eq_true _ |>.mp hflag
    · left
      rw [if_neg hcross] at hclear
      exact hclear

/-- C6 witness: a group at depth `750` with the repaint flag set crosses on
the next tick and the tick clears the flag while adopting the shared params,
hue and point cloud. -/
theorem repaint_flag_witness :
    (render envC ⟨750, 0, true, pDeg, 1, false⟩).needsUpdate = false ∧
    (render envC ⟨750, 0, true, pDeg, 1, false⟩).params = envC.orbitParams ∧
    (render envC ⟨750, 0, true, pDeg, 1, false⟩).hue = envC.hue ∧
    (render envC ⟨750, 0, true, pDeg, 1, false⟩).verticesNeedUpdate = true :=
  repaint_flag_spec.2.1 envC ⟨750, 0, true, pDeg, 1, false⟩ rfl
    (by show (750 : ℝ) + envC.speed > envC.cameraZ; norm_num [envC])

/-- The comparator passed to `particleSets.sort` in `getCurrentOrbitParams`
(lines 92-97): `-1` when either `timeCreated` is falsy (modelled as `0`),
otherwise `1` when the timestamp of `a` is smaller, else `-1` — i.e. it orders
groups by *descending* `timeCreated`. -/
noncomputable def sortCmp (a b : Group) : ℤ :=
  if a.params.timeCreated = 0 ∨ b.params.timeCreated = 0 then -1
  else if a.params.timeCreated < b.params.timeCreated then 1 else -1

/-- The order relation induced by the comparator: `a` is placed before `b`
when the comparator returns a negative value. -/
def sortRel (a b : Group) : Prop := sortCmp a b < 0

noncomputable instance : DecidableRel sortRel :=
  fun a b => inferInstanceAs (Decidable (sortCmp a b < 0))

/-- Model of `Array.prototype.sort` with `sortCmp`: a stable sort placing `a` before
`b` exactly when the comparator is negative (modelled by insertion sort,
observationally equal for a consistent comparator). -/
noncomputable def sortParticleSets (l : List Group) : List Group :=
  List.insertionSort sortRel l

/-- Function `getCurrentOrbitParams` (lines 91-99): sorts `this.particleSets` in place
with the comparator and returns `latest[latest.length - 1].params`.  The first
component is the returned params (`none` models the undefined access on an
empty array); the second component is the particle-set array *after* the call
(the sort mutates it in place). -/
noncomputable def getCurrentOrbitParams (l : List Group) : Option OrbitParams × List Group :=
  ((sortParticleSets l).getLast?.map Group.params, sortParticleSets l)

lemma sortCmp_lt_of_not_lt (a b : Group)
    (h : ¬ a.params.timeCreated < b.params.timeCreated) : sortCmp a b < 0 := by
  by_cases h1 : a.params.timeCreated = 0 ∨ b.params.timeCreated = 0
  · rw [sortCmp, if_pos h1]
    norm_num
  · rw [sortCmp, if_neg h1, if_neg h]
    norm_num

lemma sortCmp_lt_iff (a b : Group) (ha : a.params.timeCreated ≠ 0)
    (hb : b.params.timeCreated ≠ 0) :
    sortCmp a b < 0 ↔ ¬ a.params.timeCreated < b.params.timeCreated := by
  constructor
  · intro hc hlt
    rw [sortCmp, if_neg (by push_neg; exact ⟨ha, hb⟩), if_pos hlt] at hc
    norm_num at hc
  · exact sortCmp_lt_of_not_lt a b

lemma pairwise_orderedInsert {α : Type} (r : α → α → Prop) [DecidableRel r]
    (P : α → Prop)
    (htrans : ∀ x y z, P x → P y → P z → r x y → r y z → r x z)
    (htot : ∀ x y, P x → P y → ¬ r x y → r y x)
    (a : α) (ha : P a) :
    ∀ l : List α, (∀ x ∈ l, P x) → l.Pairwise r →
      (List.orderedInsert r a l).Pairwise r := by
  intro l
  induction l with
  | nil =>
    intro _ _
    simp
  | cons b t ih =>
    intro hl hp
    obtain ⟨hbt, hpt⟩ := List.pairwise_cons.mp hp
    have hPb : P b := hl b (List.mem_cons_self b t)
    have hPt : ∀ x ∈ t, P x := fun x hx => hl x (List.mem_cons_of_mem b hx)
    show (if r a b then a :: b :: t else b :: List.orderedInsert r a t).Pairwise r
    split_ifs with hab
    · refine List.pairwise_cons.mpr ⟨?_, hp⟩
      intro x hx
      rcases List.mem_cons.mp hx with rfl | hx
      · exact hab
      · exact htrans a b x ha hPb (hPt x hx) hab (hbt x hx)
    · refine List.pairwise_cons.mpr ⟨?_, ih hPt hpt⟩
      intro x hx
      rcases (List.mem_orderedInsert r).mp hx with rfl | hx
      · exact htot x b ha hPb hab
      · exact hbt x hx

lemma pairwise_insertionSort {α : Type} (r : α → α → Prop) [DecidableRel r]
    (P : α → Prop)
    (htrans : ∀ x y z, P x → P y → P z → r x y → r y z → r x z)
    (htot : ∀ x y, P x → P y → ¬ r x y → r y x) :
    ∀ l : List α, (∀ x ∈ l, P x) → (List.insertionSort r l).Pairwise r := by
  intro l
  induction l with
  | nil =>
    intro _
    simp
  | cons a t ih =>
    intro hl
    show (List.orderedInsert r a (List.insertionSort r t)).Pairwise r
    refine pairwise_orderedInsert r P htrans htot a (hl a (List.mem_cons_self a t)) _
      ?_ (ih fun x hx => hl x (List.mem_cons_of_mem a hx))
    intro x hx
    exact hl x (List.mem_cons_of_mem a ((List.perm_insertionSort r t).subset hx))

lemma getLast_pairwise_min {α : Type} (r : α → α → Prop) :
    ∀ l : List α, l.Pairwise r → ∀ m, l.getLast? = some m →
      ∀ x ∈ l, x = m ∨ r x m := by
  intro l
  induction l with
  | nil =>
    intro _ m hm
    cases hm
  | cons a t ih =>
    intro hp m hm x hx
    cases t with
    | nil =>
      have hma : m = a := by simpa using hm.symm
      rcases List.mem_singleton.mp hx with rfl
      left
      exact hma.symm
    | cons b t2 =>
      obtain ⟨hat, hpt⟩ := List.pairwise_cons.mp hp
      rw [List.getLast?_cons_cons] at hm
      rcases List.mem_cons.mp hx with rfl | hx2
      · right
        exact hat m (List.mem_of_mem_getLast? hm)
      · exact ih hpt m hm x hx2

/-- C4 (amended): for a nonempty collection of particle groups whose
timestamps are all non-falsy, `getCurrentOrbitParams` returns the params of a
group with the *earliest* `timeCreated` (the comparator sorts descending and
the code takes the last element). -/
theorem getCurrentOrbitParams_earliest (l : List Group) (hne : l ≠ [])
    (h0 : ∀ g ∈ l, g.params.timeCreated ≠ 0) :
    ∃ g ∈ l, (getCurrentOrbitParams l).1 = some g.params ∧
      ∀ g' ∈ l, g.params.timeCreated ≤ g'.params.timeCreated := by
  have hperm := List.perm_insertionSort sortRel l
  have hs_ne : List.insertionSort sortRel l ≠ [] := by
    intro h
    exact hne (List.Perm.eq_nil (h ▸ hperm).symm)
  obtain ⟨m, hm⟩ : ∃ m, (List.insertionSort sortRel l).getLast? = some m := by
    cases h' : (List.insertionSort sortRel l).getLast? with
    | none => exact absurd (List.getLast?_eq_none_iff.mp h') hs_ne
    | some m => exact ⟨m, rfl⟩
  have htrans : ∀ x y z : Group, x.params.timeCreated ≠ 0 → y.params.timeCreated ≠ 0 →
      z.params.timeCreated ≠ 0 → sortRel x y → sortRel y z → sortRel x z := by
    intro x y z hx hy hz hxy hyz
    have h1 := (sortCmp_lt_iff x y hx hy).mp hxy
    have h2 := (sortCmp_lt_iff y z hy hz).mp hyz
    exact (sortCmp_lt_iff x z hx hz).mpr (by intro h3; exact h1 (by linarith [not_lt.mp h2]))
  have htot : ∀ x y : Group, x.params.timeCreated ≠ 0 → y.params.timeCreated ≠ 0 →
      ¬ sortRel x y → sortRel y x := by
    intro x y hx hy hxy
    have h1 : x.params.timeCreated < y.params.timeCreated := by
      by_contra h
      exact hxy ((sortCmp_lt_iff x y hx hy).mpr h)
    exact (sortCmp_lt_iff y x hy hx).mpr (by linarith)
  have hpair : (List.insertionSort sortRel l).Pairwise sortRel :=
    pairwise_insertionSort sortRel (fun g => g.params.timeCreated ≠ 0) htrans htot l h0
  have hm_mem : m ∈ l := hperm.subset (List.mem_of_mem_getLast? hm)
  refine ⟨m, hm_mem, ?_, ?_⟩
  · show (sortParticleSets l).getLast?.map Group.params = some m.params
    rw [show sortParticleSets l = List.insertionSort sortRel l from rfl, hm]
    rfl
  · intro g' hg'
    have hg's : g' ∈ List.insertionSort sortRel l := hperm.mem_iff.mpr hg'
    rcases getLast_pairwise_min sortRel _ hpair m hm g' hg's with rfl | hrg
    · exact le_refl _
    · exact not_lt.mp
        (by simpa using (sortCmp_lt_iff g' m (h0 g' hg') (h0 m hm_mem)).mp hrg)

/-- A particle group whose params carry `timeCreated = 1`. -/
noncomputable def gA : Group := ⟨0, 0, false, ⟨0, 0, 0, 0, 0, 0, 0, 0, 1⟩, 0, false⟩

/-- A particle group whose params carry `timeCreated = 2`. -/
noncomputable def gB : Group := ⟨0, 0, false, ⟨0, 0, 0, 0, 0, 0, 0, 0, 2⟩, 0, false⟩

lemma sort_gA_gB : sortParticleSets [gA, gB] = [gB, gA] := by
  show List.orderedInsert sortRel gA (List.orderedInsert sortRel gB []) = [gB, gA]
  show List.orderedInsert sortRel gA [gB] = [gB, gA]
  show (if sortRel gA gB then [gA, gB] else [gB, gA]) = [gB, gA]
  rw [if_neg]
  show ¬ sortCmp gA gB < 0
  rw [sortCmp, if_neg (by norm_num [gA, gB]), if_pos (by norm_num [gA, gB])]
  norm_num

/-- C4 counterexample: with groups carrying timestamps 1 and 2, the query
returns the params with `timeCreated = 1` — the *earliest* creation timestamp,
not the latest as claimed. -/
theorem getCurrentOrbitParams_cex :
    (getCurrentOrbitParams [gA, gB]).1 = some gA.params ∧
    gA.params.timeCreated = 1 ∧ gB.params.timeCreated = 2 ∧
    (getCurrentOrbitParams [gA, gB]).1 ≠ some gB.params := by
  have h1 : (getCurrentOrbitParams [gA, gB]).1 = some gA.params := by
    show (sortParticleSets [gA, gB]).getLast?.map Group.params = some gA.params
    rw [sort_gA_gB]
    rfl
  refine ⟨h1, rfl, rfl, ?_⟩
  rw [h1]
  intro h
  have := Option.some.inj h
  have h2 : gA.params.timeCreated = gB.params.timeCreated := by rw [this]
  norm_num [gA, gB] at h2

/-- C4 witness: the amended theorem applied to the concrete collection
`[gA, gB]`. -/
theorem getCurrentOrbitParams_earliest_witness :
    ∃ g ∈ [gA, gB], (getCurrentOrbitParams [gA, gB]).1 = some g.params ∧
      ∀ g' ∈ [gA, gB], g.params.timeCreated ≤ g'.params.timeCreated :=
  getCurrentOrbitParams_earliest [gA, gB] (by simp)
    (by
      intro g hg
      rcases List.mem_cons.mp hg with rfl | hg2
      · norm_num [gA]
      · rcases List.mem_singleton.mp hg2 with rfl
        norm_num [gB])

/-- C10: the "current parameters" query is not a pure read: the array of
particle groups after the query is the sorted array, which differs from the
original order (here `[gA, gB]` becomes `[gB, gA]`). -/
theorem getCurrentOrbitParams_mutates :
    (getCurrentOrbitParams [gA, gB]).2 = [gB, gA] ∧ ([gB, gA] : List Group) ≠ [gA, gB] := by
  refine ⟨sort_gA_gB, ?_⟩
  intro h
  have h2 : gB = gA := (List.cons.injEq _ _ _ _ ▸ h).1
  have h3 : gB.params.timeCreated = gA.params.timeCreated := by rw [h2]
  norm_num [gA, gB] at h3

/-- The mutable settings scalars of the controller: `speed`, `rotationSpeed`,
camera `fov`, `mouseLocked`. -/
structure SettingsState where
  speed : ℝ
  rotationSpeed : ℝ
  fov : ℝ
  mouseLocked : Bool

/-- The partial settings patch accepted by `applySettings` (line 507):
each field is optional (`undefined` = `none`). -/
structure SettingsPatch where
  speed : Option ℝ
  rotationSpeed : Option ℝ
  mouseLocked : Option Bool
  cameraFov : Option ℝ

/-- Function `changeSpeed` (lines 538-546): `newSpeed = speed + delta`; if
`newSpeed ≥ 0` the speed becomes `newSpeed`, otherwise exactly `0`. -/
noncomputable def changeSpeed (st : SettingsState) (delta : ℝ) : SettingsState :=
  if st.speed + delta ≥ 0 then { st with speed := st.speed + delta }
  else { st with speed := 0 }

/-- Function `applySettings` (lines 507-521): every supplied field is written directly,
with no clamping of the speed. -/
noncomputable def applySettings (st : SettingsState) (p : SettingsPatch) : SettingsState :=
  { speed := p.speed.getD st.speed
    rotationSpeed := p.rotationSpeed.getD st.rotationSpeed
    mouseLocked := p.mouseLocked.getD st.mouseLocked
    fov := p.cameraFov.getD st.fov }

/-- C7 counterexample: `applySettings` writes the supplied speed unclamped:
from speed `0`, a patch carrying `speed = −1` leaves the speed at `−1 < 0`,
so a mutation path other than `changeSpeed` can make the speed negative. -/
theorem applySettings_negative_speed_cex :
    (applySettings ⟨0, 0, 60, false⟩ ⟨some (-1), none, none, none⟩).speed = -1 ∧
    (-1 : ℝ) < 0 := by
  exact ⟨rfl, by norm_num⟩

/-- C7 (amended): `changeSpeed` sets the speed to `s + delta` when that is
`≥ 0` and to exactly `0` otherwise — so the speed is never negative after
`changeSpeed` — but `applySettings` writes the supplied speed unclamped and
can make the speed negative. -/
theorem speed_clamp_amended :
    (∀ (st : SettingsState) (delta : ℝ),
      (changeSpeed st delta).speed =
        (if st.speed + delta ≥ 0 then st.speed + delta else 0) ∧
      0 ≤ (changeSpeed st delta).speed) ∧
    (∃ (st : SettingsState) (p : SettingsPatch), (applySettings st p).speed < 0) := by
  refine ⟨?_, ⟨⟨0, 0, 60, false⟩, ⟨some (-1), none, none, none⟩, by norm_num [applySettings]⟩⟩
  intro st delta
  constructor
  · simp only [changeSpeed]
    split_ifs <;> rfl
  · simp only [changeSpeed]
    split_ifs with h
    · exact h
    · exact le_refl 0

end Hopalong
